import Mathlib

set_option maxRecDepth 100000

/-! Shallow embedding of the tamper-evident logging core of the
Aeroplane-Technical-Log repository:

* `src/logger_config.py` — the record enricher `ChainedJsonFormatter.add_fields`
  (hash chaining of log records, per-channel chain state `last_hashes`) and the
  handler / propagation graph built by `setup_logging`;
* `src/verify_audit.py` — the offline chain verifier `verify_log_file`.

The HMAC-SHA256 primitive is kept abstract: every definition and theorem is
parametric in a function `hmacSig : String → String → String`
(`hmacSig secret payload` stands for
`hmac.new(secret, payload, sha256).hexdigest()`).  The source uses it as a
pure deterministic function of `(secret, payload)`, which is all the model
relies on; cryptographic assumptions (distinct payloads give distinct digests)
appear as explicit hypotheses where a claim needs them.
-/

/-- The four channels that are keys of the dict `last_hashes`
(`logger_config.py`, lines 24–29). -/
inductive Channel where
  | security
  | application
  | error
  | access
deriving DecidableEq, Repr

/-- The genesis value `"0" * 64` seeding every channel's chain
(`logger_config.py` line 25–28, `verify_audit.py` line 26). -/
def genesis : String :=
  "0000000000000000000000000000000000000000000000000000000000000000"

/-- Per-channel chain state: the Lean image of the mutable dict
`last_hashes : channel → last signature`. -/
def ChainState : Type := Channel → String

/-- The initial value of `last_hashes`: every known channel seeded to the
genesis value (`logger_config.py` lines 24–29). -/
def initState : ChainState := fun _ => genesis

/-- A raw log event as the formatter sees it: the logger's name
(`record.name`), the level name (`record.levelname`), the message
(`log_record.get('message', '')` — optional, defaulting to the empty string),
caller-supplied extra fields, and the timestamp.  The source draws the
timestamp from `datetime.utcnow()` inside `add_fields`; the model takes it as
an input of the event, matching the spec's `enrich(..., now)` contract. -/
structure LogEvent where
  name : String
  level : String
  message : Option String
  fields : List (String × String)
  timestamp : String
deriving DecidableEq, Repr

/-- A persisted log record, one JSON object per line.  `message` is optional
(the verifier reads it with `log_record.get('message', '')`).  The fields
`prev_signature`, `timestamp`, `level`, `signature` are always written by the
enricher; the verifier accesses the first three with `log_record[...]`
(a missing one makes the source raise an uncaught `KeyError`; that crash
path is modelled by `JsonRecord` and `verify_log_file_raw` below) and
`signature` with `log_record.get('signature')`. -/
structure SignedRecord where
  name : String
  timestamp : String
  level : String
  message : Option String
  fields : List (String × String)
  prev_signature : String
  signature : String
deriving DecidableEq, Repr

/-- Channel resolution of `logger_config.py` line 54:
`record.name if record.name in last_hashes else "application"`. -/
def resolveChannel (s : String) : Channel :=
  if s = "security" then Channel.security
  else if s = "application" then Channel.application
  else if s = "error" then Channel.error
  else if s = "access" then Channel.access
  else Channel.application

/-- The canonical payload `f"{prev}|{timestamp}|{level}|{message}"` built
identically by `logger_config.py` line 57 and `verify_audit.py` line 44. -/
def payloadParts (prev ts lvl : String) (msg : Option String) : String :=
  prev ++ "|" ++ ts ++ "|" ++ lvl ++ "|" ++ msg.getD ""

/-- The payload recomputed by the verifier from a persisted record
(`verify_audit.py` line 44). -/
def payloadOf (r : SignedRecord) : String :=
  payloadParts r.prev_signature r.timestamp r.level r.message

/-- Model of `ChainedJsonFormatter.add_fields` (`logger_config.py` lines 49–68):
resolve the channel, read the previous hash, sign
`prev|timestamp|level|message`, stamp `prev_signature`/`signature` on the
record and store the new hash back into the channel's chain state. -/
def add_fields (hmacSig : String → String → String) (secret : String)
    (st : ChainState) (e : LogEvent) : SignedRecord × ChainState :=
  let ch := resolveChannel e.name
  let prev_hash := st ch
  let payload := payloadParts prev_hash e.timestamp e.level e.message
  let new_hash := hmacSig secret payload
  ({ name := e.name
     timestamp := e.timestamp
     level := e.level
     message := e.message
     fields := e.fields
     prev_signature := prev_hash
     signature := new_hash },
   fun c => if c = ch then new_hash else st c)

/-- Sequential emission of a list of events, threading the chain state. -/
def emitAll (hmacSig : String → String → String) (secret : String)
    (st : ChainState) : List LogEvent → List SignedRecord × ChainState
  | [] => ([], st)
  | e :: es =>
      let p := add_fields hmacSig secret st e
      let q := emitAll hmacSig secret p.2 es
      (p.1 :: q.1, q.2)

/-- Predicate `ChainedFrom g recs`: the first record's `prev_signature` is `g` and each
later record's `prev_signature` is its predecessor's `signature`. -/
def ChainedFrom (g : String) : List SignedRecord → Prop
  | [] => True
  | r :: rs => r.prev_signature = g ∧ ChainedFrom r.signature rs

instance instDecidableChainedFrom (g : String) :
    (l : List SignedRecord) → Decidable (ChainedFrom g l)
  | [] => Decidable.isTrue True.intro
  | r :: rs =>
      have : Decidable (ChainedFrom r.signature rs) :=
        instDecidableChainedFrom r.signature rs
      inferInstanceAs (Decidable (_ ∧ _))

/-- The signature stored on each record is the HMAC of its own payload. -/
def SigOk (hmacSig : String → String → String) (secret : String)
    (recs : List SignedRecord) : Prop :=
  ∀ r ∈ recs, r.signature = hmacSig secret (payloadOf r)

instance instDecidableSigOk (hmacSig : String → String → String)
    (secret : String) (recs : List SignedRecord) :
    Decidable (SigOk hmacSig secret recs) :=
  inferInstanceAs
    (Decidable (∀ r ∈ recs, r.signature = hmacSig secret (payloadOf r)))

/-- The signature the chain carries after a list of records, starting
from `g`. -/
def lastSigFrom (g : String) : List SignedRecord → String
  | [] => g
  | r :: rs => lastSigFrom r.signature rs

lemma add_fields_prev (hmacSig : String → String → String) (secret : String)
    (st : ChainState) (e : LogEvent) :
    (add_fields hmacSig secret st e).1.prev_signature
      = st (resolveChannel e.name) := rfl

lemma add_fields_state_self (hmacSig : String → String → String)
    (secret : String) (st : ChainState) (e : LogEvent) :
    (add_fields hmacSig secret st e).2 (resolveChannel e.name)
      = (add_fields hmacSig secret st e).1.signature := by
  simp [add_fields]

lemma add_fields_state_other (hmacSig : String → String → String)
    (secret : String) (st : ChainState) (e : LogEvent) (c : Channel)
    (hc : c ≠ resolveChannel e.name) :
    (add_fields hmacSig secret st e).2 c = st c := by
  simp [add_fields, hc]

lemma emitAll_chained (hmacSig : String → String → String) (secret : String)
    (c : Channel) :
    ∀ (evs : List LogEvent) (st : ChainState),
      (∀ e ∈ evs, resolveChannel e.name = c) →
      ChainedFrom (st c) (emitAll hmacSig secret st evs).1
  | [], _, _ => True.intro
  | e :: es, st, hc => by
      have hec : resolveChannel e.name = c := hc e (List.mem_cons_self e es)
      refine ⟨?_, ?_⟩
      · show (add_fields hmacSig secret st e).1.prev_signature = st c
        rw [add_fields_prev, hec]
      · have hrest := emitAll_chained hmacSig secret c es
          (add_fields hmacSig secret st e).2
          (fun e' he' => hc e' (List.mem_cons_of_mem e he'))
        have hself : (add_fields hmacSig secret st e).2 c
            = (add_fields hmacSig secret st e).1.signature := by
          rw [← hec]; exact add_fields_state_self hmacSig secret st e
        rw [hself] at hrest
        exact hrest

lemma chainedFrom_index (g : String) :
    ∀ l : List SignedRecord, ChainedFrom g l →
      (∀ r, l[0]? = some r → r.prev_signature = g) ∧
      (∀ (i : Nat) (a b : SignedRecord), l[i]? = some a →
        l[i + 1]? = some b → b.prev_signature = a.signature)
  | [], _ => by
      constructor
      · intro r hr; simp at hr
      · intro i a b ha; simp at ha
  | r :: rs, h => by
      obtain ⟨hr, hrs⟩ := h
      have IH := chainedFrom_index r.signature rs hrs
      constructor
      · intro r' hr'
        simp at hr'
        rw [← hr']; exact hr
      · intro i a b ha hb
        match i with
        | 0 =>
            simp at ha
            have hb' : rs[0]? = some b := by simpa using hb
            rw [← ha]
            exact IH.1 b hb'
        | Nat.succ j =>
            have ha' : rs[j]? = some a := by simpa using ha
            have hb' : rs[j + 1]? = some b := by simpa using hb
            exact IH.2 j a b ha' hb'

/-- Claim C1: for any sequence of events all emitted on the same channel,
starting from the freshly seeded chain state, record `i` (for `i > 0`) has
`prev_signature` equal to the `signature` of record `i - 1`, and record `0`
has `prev_signature` equal to the genesis value of 64 zero characters. -/
theorem chain_continuity (hmacSig : String → String → String) (secret : String)
    (c : Channel) (evs : List LogEvent)
    (hc : ∀ e ∈ evs, resolveChannel e.name = c) :
    (∀ r, (emitAll hmacSig secret initState evs).1[0]? = some r →
        r.prev_signature = genesis) ∧
    (∀ (i : Nat) (a b : SignedRecord),
        (emitAll hmacSig secret initState evs).1[i]? = some a →
        (emitAll hmacSig secret initState evs).1[i + 1]? = some b →
        b.prev_signature = a.signature) := by
  have h := emitAll_chained hmacSig secret c evs initState hc
  have hg : initState c = genesis := rfl
  rw [hg] at h
  exact chainedFrom_index genesis _ h

/-- Claim C2: every emitted record's `signature` is
`hmacSig secret (prev_signature ++ "|" ++ timestamp ++ "|" ++ level ++ "|" ++
message)` over exactly those four pipe-delimited components, with the message
defaulting to the empty string; the extra `fields` are not part of the signed
payload, so changing only them leaves the signature unchanged. -/
theorem signature_payload (hmacSig : String → String → String)
    (secret : String) (st : ChainState) (e : LogEvent) :
    ((add_fields hmacSig secret st e).1.signature
      = hmacSig secret
          ((add_fields hmacSig secret st e).1.prev_signature ++ "|"
            ++ e.timestamp ++ "|" ++ e.level ++ "|" ++ e.message.getD "")) ∧
    (∀ fs : List (String × String),
      (add_fields hmacSig secret st { e with fields := fs }).1.signature
        = (add_fields hmacSig secret st e).1.signature) := by
  constructor
  · rfl
  · intro fs; rfl

/-- One kind of per-line diagnostic printed by `verify_log_file`
(`verify_audit.py` lines 36, 41, 53), tagged with its 1-based line number. -/
inductive Anomaly where
  | parseFailure (line : Nat)
  | chainBreak (line : Nat)
  | sigMismatch (line : Nat)
deriving DecidableEq, Repr

/-- One physical line of the scanned file in the crash-free fragment the
tamper-detection claims range over: either text that fails JSON parsing, or
a line that parses into a complete record.  A line that parses into JSON
lacking a required key (or into a non-object) makes the source raise at
`verify_audit.py` line 44 (respectively line 40) and is not representable
here; `JsonLine` below covers that full input domain, and
`verify_log_file_raw_agrees` shows the two models coincide on this
fragment. -/
inductive LogLine where
  | malformed
  | parsed (r : SignedRecord)
deriving DecidableEq, Repr

/-- The loop state of `verify_log_file`: `expected_prev_hash`, `line_number`,
`tampered`, plus the list of diagnostics printed so far (in print order). -/
structure VState where
  expected_prev : String
  line_number : Nat
  tampered : Bool
  anomalies : List Anomaly
deriving DecidableEq, Repr

/-- One iteration of the scan loop of `verify_log_file`
(`verify_audit.py` lines 31–56): bump the line number; on a parse failure
record the anomaly and `continue` (leaving `expected_prev` untouched);
otherwise check `prev_signature` against the expectation, recompute the HMAC
over the canonical payload, check the stored `signature`, and advance
`expected_prev` to the record's stored signature unconditionally. -/
def verifyLine (hmacSig : String → String → String) (secret : String)
    (s : VState) (l : LogLine) : VState :=
  let n := s.line_number + 1
  match l with
  | LogLine.malformed =>
      { s with line_number := n, tampered := true,
               anomalies := s.anomalies ++ [Anomaly.parseFailure n] }
  | LogLine.parsed r =>
      let s1 : VState :=
        if r.prev_signature ≠ s.expected_prev then
          { s with line_number := n, tampered := true,
                   anomalies := s.anomalies ++ [Anomaly.chainBreak n] }
        else
          { s with line_number := n }
      let computed_hash := hmacSig secret (payloadOf r)
      let s2 : VState :=
        if r.signature ≠ computed_hash then
          { s1 with tampered := true,
                    anomalies := s1.anomalies ++ [Anomaly.sigMismatch n] }
        else s1
      { s2 with expected_prev := r.signature }

/-- The scan loop folded over the whole file. -/
def runVerify (hmacSig : String → String → String) (secret : String)
    (s : VState) (lines : List LogLine) : VState :=
  lines.foldl (verifyLine hmacSig secret) s

/-- Loop state at entry of the scan (`verify_audit.py` lines 26–28). -/
def initVState : VState :=
  { expected_prev := genesis, line_number := 0, tampered := false,
    anomalies := [] }

/-- Outcome of `verify_log_file`: how many lines were read, the diagnostics
printed, the `tampered` flag, and the returned boolean. -/
structure VerifyResult where
  line_number : Nat
  anomalies : List Anomaly
  tampered : Bool
  result : Bool
deriving DecidableEq, Repr

/-- Model of `verify_log_file` (`verify_audit.py` lines 12–63) on the contents of an
existing file.  An empty secret fails the `if not SECRET_KEY` guard and
returns `False` before scanning (the source cannot reach this function with
the key unset: `os.getenv(...).encode()` would already have raised).  The
missing-file early return is outside the model, which takes the file's lines
as input.  Because `LogLine` is the crash-free fragment, this function is
total; the source function is not — on a parseable line missing a required
key it raises instead of returning, which `verify_log_file_raw` models. -/
def verify_log_file (hmacSig : String → String → String) (secret : String)
    (lines : List LogLine) : VerifyResult :=
  if secret = "" then
    { line_number := 0, anomalies := [], tampered := false, result := false }
  else
    let s := runVerify hmacSig secret initVState lines
    { line_number := s.line_number, anomalies := s.anomalies,
      tampered := s.tampered, result := !s.tampered }

lemma runVerify_append (hmacSig : String → String → String) (secret : String)
    (s : VState) (l1 l2 : List LogLine) :
    runVerify hmacSig secret s (l1 ++ l2)
      = runVerify hmacSig secret (runVerify hmacSig secret s l1) l2 :=
  List.foldl_append _ _ _ _

lemma verifyLine_line_number (hmacSig : String → String → String)
    (secret : String) (s : VState) (l : LogLine) :
    (verifyLine hmacSig secret s l).line_number = s.line_number + 1 := by
  cases l with
  | malformed => rfl
  | parsed r =>
      simp only [verifyLine]
      split
      · split <;> rfl
      · split <;> rfl

lemma runVerify_line_number (hmacSig : String → String → String)
    (secret : String) :
    ∀ (lines : List LogLine) (s : VState),
      (runVerify hmacSig secret s lines).line_number
        = s.line_number + lines.length
  | [], _ => rfl
  | l :: ls, s => by
      show (runVerify hmacSig secret (verifyLine hmacSig secret s l) ls).line_number = _
      rw [runVerify_line_number hmacSig secret ls,
          verifyLine_line_number hmacSig secret s l]
      simp [List.length_cons]
      omega

lemma verifyLine_tampered_iff (hmacSig : String → String → String)
    (secret : String) (s : VState) (l : LogLine)
    (h : s.tampered = true ↔ s.anomalies ≠ []) :
    (verifyLine hmacSig secret s l).tampered = true
      ↔ (verifyLine hmacSig secret s l).anomalies ≠ [] := by
  cases l with
  | malformed => simp [verifyLine]
  | parsed r =>
      simp only [verifyLine]
      split
      · split <;> simp
      · split
        · simp
        · simpa using h

lemma runVerify_tampered_iff (hmacSig : String → String → String)
    (secret : String) :
    ∀ (lines : List LogLine) (s : VState),
      (s.tampered = true ↔ s.anomalies ≠ []) →
      ((runVerify hmacSig secret s lines).tampered = true
        ↔ (runVerify hmacSig secret s lines).anomalies ≠ [])
  | [], _, h => h
  | l :: ls, s, h =>
      runVerify_tampered_iff hmacSig secret ls
        (verifyLine hmacSig secret s l)
        (verifyLine_tampered_iff hmacSig secret s l h)

/-- Claim C3: `verify_log_file` (under a configured, non-empty secret)
examines every line of the file — the final line counter equals the number of
lines, no anomaly aborts the scan — and returns `True` iff no line produced a
parse-failure, chain-break or signature-mismatch diagnostic. -/
theorem verify_scans_all (hmacSig : String → String → String)
    (secret : String) (lines : List LogLine) (hs : secret ≠ "") :
    (verify_log_file hmacSig secret lines).line_number = lines.length ∧
    ((verify_log_file hmacSig secret lines).result = true
      ↔ (verify_log_file hmacSig secret lines).anomalies = []) := by
  have hrun : verify_log_file hmacSig secret lines =
      { line_number := (runVerify hmacSig secret initVState lines).line_number,
        anomalies := (runVerify hmacSig secret initVState lines).anomalies,
        tampered := (runVerify hmacSig secret initVState lines).tampered,
        result := !(runVerify hmacSig secret initVState lines).tampered } := by
    simp [verify_log_file, hs]
  rw [hrun]
  have h := runVerify_tampered_iff hmacSig secret lines initVState
    (by simp [initVState])
  constructor
  · rw [runVerify_line_number]; simp [initVState]
  · cases hb : (runVerify hmacSig secret initVState lines).tampered with
    | false =>
        simp only [hb, Bool.not_false]
        constructor
        · intro _
          by_contra hne
          have hcon := h.mpr hne
          rw [hb] at hcon
          exact Bool.false_ne_true hcon
        · intro _; trivial
    | true =>
        simp only [hb, Bool.not_true]
        constructor
        · intro hft; exact (Bool.false_ne_true hft).elim
        · intro hnil; exact absurd hnil (h.mp hb)

/-- Sample stand-in for the HMAC primitive, used only to instantiate the
parametric theorems at concrete inputs: deterministic and injective in the
payload for a fixed key, like a collision-free keyed digest. -/
def hmacDemo (key payload : String) : String := key ++ "#" ++ payload

/-- Concrete demo events on the `security` channel. -/
def evDemo1 : LogEvent :=
  { name := "security", level := "INFO", message := some "login ok",
    fields := [("ip", "192.168.1.10")], timestamp := "2024-01-01T10:00:00" }

def evDemo2 : LogEvent :=
  { name := "security", level := "WARNING", message := some "bad password",
    fields := [], timestamp := "2024-01-01T10:00:01" }

def evDemo3 : LogEvent :=
  { name := "security", level := "ERROR", message := some "lockout",
    fields := [], timestamp := "2024-01-01T10:00:02" }

/-- A concrete valid three-record sink produced by the enricher. -/
def recsDemo : List SignedRecord :=
  (emitAll hmacDemo "sk" initState [evDemo1, evDemo2, evDemo3]).1

/-- Witness for C1 at a concrete input. -/
theorem chain_continuity_witness :
    (∀ e ∈ [evDemo1, evDemo2, evDemo3],
        resolveChannel e.name = Channel.security) ∧
    ((∀ r, (emitAll hmacDemo "sk" initState [evDemo1, evDemo2, evDemo3]).1[0]?
          = some r → r.prev_signature = genesis) ∧
      (∀ (i : Nat) (a b : SignedRecord),
        (emitAll hmacDemo "sk" initState [evDemo1, evDemo2, evDemo3]).1[i]?
          = some a →
        (emitAll hmacDemo "sk" initState [evDemo1, evDemo2, evDemo3]).1[i + 1]?
          = some b → b.prev_signature = a.signature)) :=
  ⟨by decide,
   chain_continuity hmacDemo "sk" Channel.security [evDemo1, evDemo2, evDemo3]
     (by decide)⟩

/-- Witness for C3 at a concrete input. -/
theorem verify_scans_all_witness :
    ("sk" ≠ "") ∧
    ((verify_log_file hmacDemo "sk" [LogLine.malformed]).line_number
        = [LogLine.malformed].length ∧
      ((verify_log_file hmacDemo "sk" [LogLine.malformed]).result = true
        ↔ (verify_log_file hmacDemo "sk" [LogLine.malformed]).anomalies
            = [])) :=
  ⟨by decide, verify_scans_all hmacDemo "sk" [LogLine.malformed] (by decide)⟩

lemma verify_log_file_eq (hmacSig : String → String → String)
    (secret : String) (lines : List LogLine) (hs : secret ≠ "") :
    verify_log_file hmacSig secret lines
      = { line_number := (runVerify hmacSig secret initVState lines).line_number,
          anomalies := (runVerify hmacSig secret initVState lines).anomalies,
          tampered := (runVerify hmacSig secret initVState lines).tampered,
          result := !(runVerify hmacSig secret initVState lines).tampered } := by
  simp [verify_log_file, hs]

lemma runVerify_cons (hmacSig : String → String → String) (secret : String)
    (s : VState) (l : LogLine) (ls : List LogLine) :
    runVerify hmacSig secret s (l :: ls)
      = runVerify hmacSig secret (verifyLine hmacSig secret s l) ls := rfl

lemma verifyLine_malformed (hmacSig : String → String → String)
    (secret : String) (s : VState) :
    verifyLine hmacSig secret s LogLine.malformed
      = { s with line_number := s.line_number + 1, tampered := true,
                 anomalies := s.anomalies
                   ++ [Anomaly.parseFailure (s.line_number + 1)] } := rfl

lemma verifyLine_valid (hmacSig : String → String → String) (secret : String)
    (s : VState) (r : SignedRecord)
    (hprev : r.prev_signature = s.expected_prev)
    (hsig : r.signature = hmacSig secret (payloadOf r)) :
    verifyLine hmacSig secret s (LogLine.parsed r)
      = { expected_prev := r.signature, line_number := s.line_number + 1,
          tampered := s.tampered, anomalies := s.anomalies } := by
  simp [verifyLine, hprev, ← hsig]

lemma verifyLine_sigbreak (hmacSig : String → String → String)
    (secret : String) (s : VState) (r : SignedRecord)
    (hprev : r.prev_signature = s.expected_prev)
    (hne : r.signature ≠ hmacSig secret (payloadOf r)) :
    verifyLine hmacSig secret s (LogLine.parsed r)
      = { expected_prev := r.signature, line_number := s.line_number + 1,
          tampered := true,
          anomalies := s.anomalies
            ++ [Anomaly.sigMismatch (s.line_number + 1)] } := by
  simp [verifyLine, hprev, hne]

lemma verifyLine_chainbreak (hmacSig : String → String → String)
    (secret : String) (s : VState) (r : SignedRecord)
    (hprev : r.prev_signature ≠ s.expected_prev)
    (hsig : r.signature = hmacSig secret (payloadOf r)) :
    verifyLine hmacSig secret s (LogLine.parsed r)
      = { expected_prev := r.signature, line_number := s.line_number + 1,
          tampered := true,
          anomalies := s.anomalies
            ++ [Anomaly.chainBreak (s.line_number + 1)] } := by
  simp [verifyLine, hprev, ← hsig]

lemma runVerify_valid_seg (hmacSig : String → String → String)
    (secret : String) :
    ∀ (recs : List SignedRecord) (s : VState),
      ChainedFrom s.expected_prev recs →
      SigOk hmacSig secret recs →
      runVerify hmacSig secret s (recs.map LogLine.parsed)
        = { expected_prev := lastSigFrom s.expected_prev recs,
            line_number := s.line_number + recs.length,
            tampered := s.tampered, anomalies := s.anomalies }
  | [], s, _, _ => rfl
  | r :: rs, s, hch, hsg => by
      obtain ⟨hprev, hrest⟩ := hch
      have hsr : r.signature = hmacSig secret (payloadOf r) :=
        hsg r (List.mem_cons_self r rs)
      rw [List.map_cons, runVerify_cons,
          verifyLine_valid hmacSig secret s r hprev hsr]
      rw [runVerify_valid_seg hmacSig secret rs
            { expected_prev := r.signature, line_number := s.line_number + 1,
              tampered := s.tampered, anomalies := s.anomalies }
            hrest (fun r' h' => hsg r' (List.mem_cons_of_mem r h'))]
      simp only [lastSigFrom, List.length_cons, VState.mk.injEq,
        eq_self_iff_true, true_and, and_true]
      omega

lemma chainedFrom_append (g : String) :
    ∀ (pre post : List SignedRecord), ChainedFrom g (pre ++ post) →
      ChainedFrom g pre ∧ ChainedFrom (lastSigFrom g pre) post
  | [], _, h => ⟨True.intro, h⟩
  | r :: rs, post, h => by
      obtain ⟨hr, hrest⟩ := h
      have IH := chainedFrom_append r.signature rs post hrest
      exact ⟨⟨hr, IH.1⟩, IH.2⟩

lemma sigOk_append (hmacSig : String → String → String) (secret : String)
    (l1 l2 : List SignedRecord) (h : SigOk hmacSig secret (l1 ++ l2)) :
    SigOk hmacSig secret l1 ∧ SigOk hmacSig secret l2 :=
  ⟨fun r hr => h r (List.mem_append_left l2 hr),
   fun r hr => h r (List.mem_append_right l1 hr)⟩

lemma decomp_at (recs : List SignedRecord) (k : Nat) (r : SignedRecord)
    (hr : recs[k]? = some r) :
    recs = recs.take k ++ r :: recs.drop (k + 1)
      ∧ (recs.take k).length = k := by
  obtain ⟨hk, hget⟩ := List.getElem?_eq_some.mp hr
  constructor
  · conv_lhs => rw [← List.take_append_drop k recs]
    rw [List.drop_eq_getElem_cons hk, hget]
  · simp only [List.length_take]
    omega

/-- Claim C4: on a valid sink produced by the enricher, replacing the
`message` of the record at index `k` (line `k + 1`) while keeping its stored
`signature` makes `verify_log_file` print exactly one diagnostic — a
signature mismatch at line `k + 1`, so no anomaly at any earlier line — and
return `False`.  The hypothesis `hne` is the collision-freeness of the HMAC
on the two payloads (the spec's "any change in payload changes the
digest"). -/
theorem tamper_edit_detected (hmacSig : String → String → String)
    (secret : String) (recs : List SignedRecord) (k : Nat) (r : SignedRecord)
    (m' : Option String) (hs : secret ≠ "")
    (hr : recs[k]? = some r)
    (hchain : ChainedFrom genesis recs)
    (hsig : SigOk hmacSig secret recs)
    (hne : hmacSig secret (payloadOf { r with message := m' })
      ≠ r.signature) :
    (verify_log_file hmacSig secret
        ((recs.take k ++ { r with message := m' } :: recs.drop (k + 1)).map
          LogLine.parsed)).anomalies = [Anomaly.sigMismatch (k + 1)] ∧
    (verify_log_file hmacSig secret
        ((recs.take k ++ { r with message := m' } :: recs.drop (k + 1)).map
          LogLine.parsed)).result = false := by
  obtain ⟨hdecomp, hlen⟩ := decomp_at recs k r hr
  have hchain2 : ChainedFrom genesis
      (recs.take k ++ r :: recs.drop (k + 1)) := by
    rw [← hdecomp]; exact hchain
  obtain ⟨hpre, hmid⟩ :=
    chainedFrom_append genesis (recs.take k) (r :: recs.drop (k + 1)) hchain2
  obtain ⟨hrprev, hpost⟩ := hmid
  have hsig2 : SigOk hmacSig secret
      (recs.take k ++ r :: recs.drop (k + 1)) := by
    rw [← hdecomp]; exact hsig
  obtain ⟨hsigpre, hsigmid⟩ :=
    sigOk_append hmacSig secret (recs.take k) (r :: recs.drop (k + 1)) hsig2
  have hsigpost : SigOk hmacSig secret (recs.drop (k + 1)) :=
    fun r2 h2 => hsigmid r2 (List.mem_cons_of_mem r h2)
  have h1 : runVerify hmacSig secret initVState
      ((recs.take k).map LogLine.parsed)
      = { expected_prev := r.prev_signature, line_number := k,
          tampered := false, anomalies := [] } := by
    rw [runVerify_valid_seg hmacSig secret (recs.take k) initVState hpre
        hsigpre]
    simp only [VState.mk.injEq]
    refine ⟨hrprev.symm, ?_, rfl, rfl⟩
    show 0 + (recs.take k).length = k
    omega
  have h2 : verifyLine hmacSig secret
      { expected_prev := r.prev_signature, line_number := k,
        tampered := false, anomalies := [] }
      (LogLine.parsed { r with message := m' })
      = { expected_prev := r.signature, line_number := k + 1,
          tampered := true,
          anomalies := [Anomaly.sigMismatch (k + 1)] } := by
    rw [verifyLine_sigbreak hmacSig secret _ { r with message := m' } rfl
        (fun h => hne h.symm)]
    simp
  have h3 : runVerify hmacSig secret
      { expected_prev := r.signature, line_number := k + 1,
        tampered := true, anomalies := [Anomaly.sigMismatch (k + 1)] }
      ((recs.drop (k + 1)).map LogLine.parsed)
      = { expected_prev := lastSigFrom r.signature (recs.drop (k + 1)),
          line_number := (k + 1) + (recs.drop (k + 1)).length,
          tampered := true,
          anomalies := [Anomaly.sigMismatch (k + 1)] } :=
    runVerify_valid_seg hmacSig secret (recs.drop (k + 1)) _ hpost hsigpost
  rw [verify_log_file_eq hmacSig secret _ hs]
  rw [List.map_append, List.map_cons, runVerify_append, h1, runVerify_cons,
      h2, h3]
  exact ⟨rfl, rfl⟩

/-- The first demo record (index 0 of `recsDemo`). -/
def rDemoA : SignedRecord := (add_fields hmacDemo "sk" initState evDemo1).1

/-- The second demo record (index 1 of `recsDemo`). -/
def rDemoB : SignedRecord :=
  (add_fields hmacDemo "sk" (add_fields hmacDemo "sk" initState evDemo1).2
    evDemo2).1

/-- Witness for C4 at a concrete input: editing the message of the second
record of a valid three-record sink. -/
theorem tamper_edit_detected_witness :
    ("sk" ≠ "") ∧ recsDemo[1]? = some rDemoB ∧
    ChainedFrom genesis recsDemo ∧ SigOk hmacDemo "sk" recsDemo ∧
    hmacDemo "sk" (payloadOf { rDemoB with message := some "evil" })
      ≠ rDemoB.signature ∧
    ((verify_log_file hmacDemo "sk"
        ((recsDemo.take 1
            ++ { rDemoB with message := some "evil" }
              :: recsDemo.drop (1 + 1)).map
          LogLine.parsed)).anomalies = [Anomaly.sigMismatch (1 + 1)] ∧
      (verify_log_file hmacDemo "sk"
        ((recsDemo.take 1
            ++ { rDemoB with message := some "evil" }
              :: recsDemo.drop (1 + 1)).map
          LogLine.parsed)).result = false) :=
  ⟨by decide, by decide, by decide, by decide, by decide,
   tamper_edit_detected hmacDemo "sk" recsDemo 1 rDemoB (some "evil")
     (by decide) (by decide) (by decide) (by decide) (by decide)⟩

/-- Claim C5: on a valid sink produced by the enricher, deleting the record
at index `k` when a successor record exists makes `verify_log_file` print
exactly one diagnostic — a chain discontinuity at the line now numbered
`k + 1`, which carries the original record `k + 1` — and return `False`.
The hypothesis `hne` rules out the degenerate digest collision where a
record's signature equals its own `prev_signature`. -/
theorem tamper_delete_detected (hmacSig : String → String → String)
    (secret : String) (recs : List SignedRecord) (k : Nat)
    (r b : SignedRecord) (hs : secret ≠ "")
    (hr : recs[k]? = some r)
    (hb : recs[k + 1]? = some b)
    (hchain : ChainedFrom genesis recs)
    (hsig : SigOk hmacSig secret recs)
    (hne : r.signature ≠ r.prev_signature) :
    (verify_log_file hmacSig secret
        ((recs.take k ++ recs.drop (k + 1)).map LogLine.parsed)).anomalies
      = [Anomaly.chainBreak (k + 1)] ∧
    (verify_log_file hmacSig secret
        ((recs.take k ++ recs.drop (k + 1)).map LogLine.parsed)).result
      = false := by
  obtain ⟨hdecomp, hlen⟩ := decomp_at recs k r hr
  obtain ⟨hk1, hgetb⟩ := List.getElem?_eq_some.mp hb
  have hdropb : recs.drop (k + 1) = b :: recs.drop (k + 2) := by
    rw [List.drop_eq_getElem_cons hk1, hgetb]
  have hchain2 : ChainedFrom genesis
      (recs.take k ++ r :: recs.drop (k + 1)) := by
    rw [← hdecomp]; exact hchain
  obtain ⟨hpre, hmid⟩ :=
    chainedFrom_append genesis (recs.take k) (r :: recs.drop (k + 1)) hchain2
  obtain ⟨hrprev, hpost⟩ := hmid
  rw [hdropb] at hpost
  obtain ⟨hbprev, hrest⟩ := hpost
  have hsig2 : SigOk hmacSig secret
      (recs.take k ++ r :: recs.drop (k + 1)) := by
    rw [← hdecomp]; exact hsig
  obtain ⟨hsigpre, hsigmid⟩ :=
    sigOk_append hmacSig secret (recs.take k) (r :: recs.drop (k + 1)) hsig2
  have hsigpost : SigOk hmacSig secret (recs.drop (k + 1)) :=
    fun r2 h2 => hsigmid r2 (List.mem_cons_of_mem r h2)
  have hsgb : b.signature = hmacSig secret (payloadOf b) :=
    hsigpost b (by rw [hdropb]; exact List.mem_cons_self b _)
  have hsgrest : SigOk hmacSig secret (recs.drop (k + 2)) :=
    fun r2 h2 => hsigpost r2 (by rw [hdropb]; exact List.mem_cons_of_mem b h2)
  have h1 : runVerify hmacSig secret initVState
      ((recs.take k).map LogLine.parsed)
      = { expected_prev := r.prev_signature, line_number := k,
          tampered := false, anomalies := [] } := by
    rw [runVerify_valid_seg hmacSig secret (recs.take k) initVState hpre
        hsigpre]
    simp only [VState.mk.injEq]
    refine ⟨hrprev.symm, ?_, rfl, rfl⟩
    show 0 + (recs.take k).length = k
    omega
  have h2 : verifyLine hmacSig secret
      { expected_prev := r.prev_signature, line_number := k,
        tampered := false, anomalies := [] } (LogLine.parsed b)
      = { expected_prev := b.signature, line_number := k + 1,
          tampered := true,
          anomalies := [Anomaly.chainBreak (k + 1)] } := by
    rw [verifyLine_chainbreak hmacSig secret _ b
        (by rw [hbprev]; exact hne) hsgb]
    rfl
  have h3 : runVerify hmacSig secret
      { expected_prev := b.signature, line_number := k + 1,
        tampered := true, anomalies := [Anomaly.chainBreak (k + 1)] }
      ((recs.drop (k + 2)).map LogLine.parsed)
      = { expected_prev := lastSigFrom b.signature (recs.drop (k + 2)),
          line_number := (k + 1) + (recs.drop (k + 2)).length,
          tampered := true,
          anomalies := [Anomaly.chainBreak (k + 1)] } :=
    runVerify_valid_seg hmacSig secret (recs.drop (k + 2)) _ hrest hsgrest
  rw [verify_log_file_eq hmacSig secret _ hs, hdropb, List.map_append,
      List.map_cons, runVerify_append, h1, runVerify_cons, h2, h3]
  exact ⟨rfl, rfl⟩

/-- Witness for C5 at a concrete input: deleting the first record of a valid
three-record sink. -/
theorem tamper_delete_detected_witness :
    ("sk" ≠ "") ∧ recsDemo[0]? = some rDemoA ∧ recsDemo[0 + 1]? = some rDemoB ∧
    ChainedFrom genesis recsDemo ∧ SigOk hmacDemo "sk" recsDemo ∧
    rDemoA.signature ≠ rDemoA.prev_signature ∧
    ((verify_log_file hmacDemo "sk"
        ((recsDemo.take 0 ++ recsDemo.drop (0 + 1)).map
          LogLine.parsed)).anomalies = [Anomaly.chainBreak (0 + 1)] ∧
      (verify_log_file hmacDemo "sk"
        ((recsDemo.take 0 ++ recsDemo.drop (0 + 1)).map
          LogLine.parsed)).result = false) :=
  ⟨by decide, by decide, by decide, by decide, by decide, by decide,
   tamper_delete_detected hmacDemo "sk" recsDemo 0 rDemoA rDemoB
     (by decide) (by decide) (by decide) (by decide) (by decide) (by decide)⟩

/-- Claim C10: a parse failure does not advance the verifier's expected
predecessor (`continue` skips the line 56 update), so corrupting one line of
an otherwise valid sink into unparseable text — when a later line exists —
yields exactly two diagnostics: a parse failure at that line and a chain
discontinuity at the next (parseable) line, with no anomaly afterwards, and
the run returns `False`.  `hne` rules out the degenerate digest collision
where the corrupted record's signature equals its own `prev_signature`. -/
theorem parse_failure_two_anomalies (hmacSig : String → String → String)
    (secret : String) (recs : List SignedRecord) (j : Nat)
    (r b : SignedRecord) (hs : secret ≠ "")
    (hr : recs[j]? = some r)
    (hb : recs[j + 1]? = some b)
    (hchain : ChainedFrom genesis recs)
    (hsig : SigOk hmacSig secret recs)
    (hne : r.signature ≠ r.prev_signature) :
    (verify_log_file hmacSig secret
        ((recs.take j).map LogLine.parsed
          ++ LogLine.malformed
            :: (recs.drop (j + 1)).map LogLine.parsed)).anomalies
      = [Anomaly.parseFailure (j + 1), Anomaly.chainBreak (j + 2)] ∧
    (verify_log_file hmacSig secret
        ((recs.take j).map LogLine.parsed
          ++ LogLine.malformed
            :: (recs.drop (j + 1)).map LogLine.parsed)).result = false := by
  obtain ⟨hdecomp, hlen⟩ := decomp_at recs j r hr
  obtain ⟨hk1, hgetb⟩ := List.getElem?_eq_some.mp hb
  have hdropb : recs.drop (j + 1) = b :: recs.drop (j + 2) := by
    rw [List.drop_eq_getElem_cons hk1, hgetb]
  have hchain2 : ChainedFrom genesis
      (recs.take j ++ r :: recs.drop (j + 1)) := by
    rw [← hdecomp]; exact hchain
  obtain ⟨hpre, hmid⟩ :=
    chainedFrom_append genesis (recs.take j) (r :: recs.drop (j + 1)) hchain2
  obtain ⟨hrprev, hpost⟩ := hmid
  rw [hdropb] at hpost
  obtain ⟨hbprev, hrest⟩ := hpost
  have hsig2 : SigOk hmacSig secret
      (recs.take j ++ r :: recs.drop (j + 1)) := by
    rw [← hdecomp]; exact hsig
  obtain ⟨hsigpre, hsigmid⟩ :=
    sigOk_append hmacSig secret (recs.take j) (r :: recs.drop (j + 1)) hsig2
  have hsigpost : SigOk hmacSig secret (recs.drop (j + 1)) :=
    fun r2 h2 => hsigmid r2 (List.mem_cons_of_mem r h2)
  have hsgb : b.signature = hmacSig secret (payloadOf b) :=
    hsigpost b (by rw [hdropb]; exact List.mem_cons_self b _)
  have hsgrest : SigOk hmacSig secret (recs.drop (j + 2)) :=
    fun r2 h2 => hsigpost r2 (by rw [hdropb]; exact List.mem_cons_of_mem b h2)
  have h1 : runVerify hmacSig secret initVState
      ((recs.take j).map LogLine.parsed)
      = { expected_prev := r.prev_signature, line_number := j,
          tampered := false, anomalies := [] } := by
    rw [runVerify_valid_seg hmacSig secret (recs.take j) initVState hpre
        hsigpre]
    simp only [VState.mk.injEq]
    refine ⟨hrprev.symm, ?_, rfl, rfl⟩
    show 0 + (recs.take j).length = j
    omega
  have h2 : verifyLine hmacSig secret
      { expected_prev := r.prev_signature, line_number := j,
        tampered := false, anomalies := [] } LogLine.malformed
      = { expected_prev := r.prev_signature, line_number := j + 1,
          tampered := true,
          anomalies := [Anomaly.parseFailure (j + 1)] } := rfl
  have h3 : verifyLine hmacSig secret
      { expected_prev := r.prev_signature, line_number := j + 1,
        tampered := true, anomalies := [Anomaly.parseFailure (j + 1)] }
      (LogLine.parsed b)
      = { expected_prev := b.signature, line_number := j + 2,
          tampered := true,
          anomalies := [Anomaly.parseFailure (j + 1),
            Anomaly.chainBreak (j + 2)] } := by
    rw [verifyLine_chainbreak hmacSig secret _ b
        (by rw [hbprev]; exact hne) hsgb]
    rfl
  have h4 : runVerify hmacSig secret
      { expected_prev := b.signature, line_number := j + 2,
        tampered := true,
        anomalies := [Anomaly.parseFailure (j + 1),
          Anomaly.chainBreak (j + 2)] }
      ((recs.drop (j + 2)).map LogLine.parsed)
      = { expected_prev := lastSigFrom b.signature (recs.drop (j + 2)),
          line_number := (j + 2) + (recs.drop (j + 2)).length,
          tampered := true,
          anomalies := [Anomaly.parseFailure (j + 1),
            Anomaly.chainBreak (j + 2)] } :=
    runVerify_valid_seg hmacSig secret (recs.drop (j + 2)) _ hrest hsgrest
  rw [verify_log_file_eq hmacSig secret _ hs, hdropb, List.map_cons,
      runVerify_append, h1, runVerify_cons, h2, runVerify_cons, h3, h4]
  exact ⟨rfl, rfl⟩

/-- Witness for C10 at a concrete input: corrupting the first line of a
valid three-record sink. -/
theorem parse_failure_two_anomalies_witness :
    ("sk" ≠ "") ∧ recsDemo[0]? = some rDemoA ∧ recsDemo[0 + 1]? = some rDemoB ∧
    ChainedFrom genesis recsDemo ∧ SigOk hmacDemo "sk" recsDemo ∧
    rDemoA.signature ≠ rDemoA.prev_signature ∧
    ((verify_log_file hmacDemo "sk"
        ((recsDemo.take 0).map LogLine.parsed
          ++ LogLine.malformed
            :: (recsDemo.drop (0 + 1)).map LogLine.parsed)).anomalies
      = [Anomaly.parseFailure (0 + 1), Anomaly.chainBreak (0 + 2)] ∧
     (verify_log_file hmacDemo "sk"
        ((recsDemo.take 0).map LogLine.parsed
          ++ LogLine.malformed
            :: (recsDemo.drop (0 + 1)).map LogLine.parsed)).result = false) :=
  ⟨by decide, by decide, by decide, by decide, by decide, by decide,
   parse_failure_two_anomalies hmacDemo "sk" recsDemo 0 rDemoA rDemoB
     (by decide) (by decide) (by decide) (by decide) (by decide) (by decide)⟩

/-- The membership test `record.name in last_hashes` of `logger_config.py`
line 54 as a predicate on the name. -/
def knownChannelName (s : String) : Bool :=
  s = "security" || s = "application" || s = "error" || s = "access"

/-- Claim C8: when the emitting logger's name is not one of the four known
channels, the enricher chains through the `application` entry — the record's
`prev_signature` is read from `ChainState[application]` and the new signature
is stored back there — while the record still carries the caller-supplied
name. -/
theorem unknown_channel_uses_application (hmacSig : String → String → String)
    (secret : String) (st : ChainState) (e : LogEvent)
    (h : knownChannelName e.name = false) :
    (add_fields hmacSig secret st e).1.prev_signature
        = st Channel.application ∧
    (add_fields hmacSig secret st e).2 Channel.application
        = (add_fields hmacSig secret st e).1.signature ∧
    (add_fields hmacSig secret st e).1.name = e.name := by
  have hres : resolveChannel e.name = Channel.application := by
    simp only [knownChannelName, Bool.or_eq_false_iff,
      decide_eq_false_iff_not] at h
    obtain ⟨⟨⟨h1, h2⟩, h3⟩, h4⟩ := h
    simp [resolveChannel, h1, h2, h3, h4]
  refine ⟨?_, ?_, rfl⟩
  · rw [add_fields_prev, hres]
  · rw [← hres]
    exact add_fields_state_self hmacSig secret st e

/-- A demo event whose logger name is not a known channel. -/
def evDemoUnknown : LogEvent :=
  { name := "frontend", level := "INFO", message := some "hello",
    fields := [], timestamp := "2024-01-02T00:00:00" }

/-- Witness for C8 at a concrete input. -/
theorem unknown_channel_uses_application_witness :
    (knownChannelName evDemoUnknown.name = false) ∧
    ((add_fields hmacDemo "sk" initState evDemoUnknown).1.prev_signature
        = initState Channel.application ∧
      (add_fields hmacDemo "sk" initState evDemoUnknown).2 Channel.application
        = (add_fields hmacDemo "sk" initState evDemoUnknown).1.signature ∧
      (add_fields hmacDemo "sk" initState evDemoUnknown).1.name
        = evDemoUnknown.name) :=
  ⟨by decide,
   unknown_channel_uses_application hmacDemo "sk" initState evDemoUnknown
     (by decide)⟩

/-- Claim C9 (frame condition): an emission whose resolved channel is `c`
leaves every other channel's chain-state entry unchanged; only
`ChainState[c]` is overwritten. -/
theorem emission_isolated (hmacSig : String → String → String)
    (secret : String) (st : ChainState) (e : LogEvent) (c c' : Channel)
    (hc : resolveChannel e.name = c) (hne : c' ≠ c) :
    (add_fields hmacSig secret st e).2 c' = st c' := by
  subst hc
  exact add_fields_state_other hmacSig secret st e c' hne

/-- Witness for C9 at a concrete input: a `security` emission leaves
`ChainState[application]` untouched. -/
theorem emission_isolated_witness :
    (resolveChannel evDemo1.name = Channel.security) ∧
    (Channel.application ≠ Channel.security) ∧
    (add_fields hmacDemo "sk" initState evDemo1).2 Channel.application
      = initState Channel.application :=
  ⟨by decide, by decide,
   emission_isolated hmacDemo "sk" initState evDemo1 Channel.security
     Channel.application (by decide) (by decide)⟩

/-- Numeric level of `logging.INFO`. -/
def levelINFO : Nat := 20

/-- Numeric level of `logging.ERROR`. -/
def levelERROR : Nat := 40

/-- The file sinks a record emitted on logger `name` at numeric severity
`levelno` is appended to, under the handler graph built by `setup_logging`
(`logger_config.py` lines 71–111): the root logger's level is INFO, so that
is every logger's effective level; `access`, `application` and `security`
each own one file handler (level INFO) and have `propagate = False`; every
other logger name (including `error`) has no handler of its own and
propagates to the root logger, whose only handler is the `error.log` handler
at level ERROR.  (The stderr `lastResort` fallback of the logging library is
not a file sink and is not modelled.) -/
def sinksFor (name : String) (levelno : Nat) : List String :=
  if levelno < levelINFO then []
  else if name = "access" then
    if levelINFO ≤ levelno then ["logs/access.log"] else []
  else if name = "application" then
    if levelINFO ≤ levelno then ["logs/application.log"] else []
  else if name = "security" then
    if levelINFO ≤ levelno then ["logs/security.log"] else []
  else if levelERROR ≤ levelno then ["logs/error.log"] else []

/-- Claim C6 counterexample: an ERROR-severity event on the `security`
channel is appended only to that channel's own sink; it never reaches the
process-wide `logs/error.log` sink, because `setup_logging` sets
`propagate = False` on the `security` (likewise `access` and `application`)
logger, so its records never reach the root logger's error handler. -/
theorem error_routing_cex :
    sinksFor "security" levelERROR = ["logs/security.log"] ∧
    ¬ ("logs/error.log" ∈ sinksFor "security" levelERROR) := by decide

/-- Claim C6 amended: each of the three channel loggers (`access`,
`application`, `security`) appends an event at INFO severity or above only
to its own sink — at every severity, including ERROR and above, nothing is
duplicated into the error sink because the loggers do not propagate — and an
event on any other logger name is appended to the process-wide
`logs/error.log` sink exactly when its severity is ERROR or above. -/
theorem channel_routing (name : String) (v : Nat) :
    (sinksFor "access" v
      = if levelINFO ≤ v then ["logs/access.log"] else []) ∧
    (sinksFor "application" v
      = if levelINFO ≤ v then ["logs/application.log"] else []) ∧
    (sinksFor "security" v
      = if levelINFO ≤ v then ["logs/security.log"] else []) ∧
    (name ≠ "access" → name ≠ "application" → name ≠ "security" →
      sinksFor name v = if levelERROR ≤ v then ["logs/error.log"] else []) := by
  refine ⟨?_, ?_, ?_, fun hn1 hn2 hn3 => ?_⟩
  · by_cases hv : v < levelINFO
    · have h2 : ¬ levelINFO ≤ v := by omega
      simp [sinksFor, hv, h2]
    · have h2 : levelINFO ≤ v := by omega
      simp [sinksFor, hv, h2]
  · by_cases hv : v < levelINFO
    · have h2 : ¬ levelINFO ≤ v := by omega
      simp [sinksFor, hv, h2]
    · have h2 : levelINFO ≤ v := by omega
      simp [sinksFor, hv, h2]
  · by_cases hv : v < levelINFO
    · have h2 : ¬ levelINFO ≤ v := by omega
      simp [sinksFor, hv, h2]
    · have h2 : levelINFO ≤ v := by omega
      simp [sinksFor, hv, h2]
  · by_cases hv : v < levelINFO
    · have h2 : ¬ levelERROR ≤ v := by
        simp only [levelINFO] at hv
        simp only [levelERROR]
        omega
      simp [sinksFor, hv, h2]
    · simp [sinksFor, hv, hn1, hn2, hn3]

/-- Witness for the amended C6 at a concrete input: the `error` logger name
at ERROR severity routes to the process-wide error sink. -/
theorem channel_routing_witness :
    (("error" : String) ≠ "access") ∧ (("error" : String) ≠ "application") ∧
    (("error" : String) ≠ "security") ∧
    sinksFor "error" levelERROR
      = (if levelERROR ≤ levelERROR then ["logs/error.log"] else []) :=
  ⟨by decide, by decide, by decide,
   (channel_routing "error" levelERROR).2.2.2 (by decide) (by decide)
     (by decide)⟩

/-- A JSON object as `json.loads` hands it to the scan loop: every field the
verifier touches is optional, matching a Python dict that may lack any
key. -/
structure JsonRecord where
  prev_signature : Option String
  timestamp : Option String
  level : Option String
  message : Option String
  signature : Option String
deriving DecidableEq, Repr

/-- One physical line of the scanned file over the verifier's full input
domain: text that fails JSON parsing, text that parses to a non-object
(on which `log_record.get` at `verify_audit.py` line 40 raises
`AttributeError`), or a JSON object with any subset of the keys present. -/
inductive JsonLine where
  | malformed
  | nonObject
  | object (r : JsonRecord)
deriving DecidableEq, Repr

/-- Loop state of the full-domain scan.  `expected_prev` is an `Option`
because line 56 stores `log_record.get('signature')`, which is `None` when
the key is absent; the comparison at line 40 then follows Python's
`None`/`str` equality, which Option equality mirrors exactly. -/
structure JState where
  expected_prev : Option String
  line_number : Nat
  tampered : Bool
  anomalies : List Anomaly
deriving DecidableEq, Repr

/-- Loop state at entry of the full-domain scan: `expected_prev_hash` is the
genesis string (`verify_audit.py` line 26). -/
def initJState : JState :=
  { expected_prev := some genesis, line_number := 0, tampered := false,
    anomalies := [] }

/-- One iteration of the scan loop of `verify_log_file` over the full input
domain (`verify_audit.py` lines 31–56), including the crash paths the source
does not catch: a non-object line raises before any check prints
(`Except.error` with only the line counter advanced); an object line runs the
line-40 chain comparison on `log_record.get('prev_signature')` first, and
then — if `prev_signature`, `timestamp` or `level` is absent — the f-string
at line 44 raises `KeyError` and the scan aborts with whatever was printed so
far (`Except.error`).  Only a complete record reaches the signature check and
the line-56 update. -/
def verifyJsonLine (hmacSig : String → String → String) (secret : String)
    (s : JState) (l : JsonLine) : Except JState JState :=
  let n := s.line_number + 1
  match l with
  | JsonLine.malformed =>
      Except.ok { s with line_number := n, tampered := true,
                         anomalies := s.anomalies ++ [Anomaly.parseFailure n] }
  | JsonLine.nonObject =>
      Except.error { s with line_number := n }
  | JsonLine.object r =>
      let s1 : JState :=
        if r.prev_signature ≠ s.expected_prev then
          { s with line_number := n, tampered := true,
                   anomalies := s.anomalies ++ [Anomaly.chainBreak n] }
        else
          { s with line_number := n }
      match r.prev_signature, r.timestamp, r.level with
      | some prev, some ts, some lvl =>
          let computed_hash := hmacSig secret (payloadParts prev ts lvl r.message)
          let s2 : JState :=
            if r.signature ≠ some computed_hash then
              { s1 with tampered := true,
                        anomalies := s1.anomalies ++ [Anomaly.sigMismatch n] }
            else s1
          Except.ok { s2 with expected_prev := r.signature }
      | _, _, _ => Except.error s1

/-- The full-domain scan loop: an uncaught exception short-circuits the fold
with the state at the crash. -/
def runVerifyJson (hmacSig : String → String → String) (secret : String)
    (s : JState) : List JsonLine → Except JState JState
  | [] => Except.ok s
  | l :: ls =>
      match verifyJsonLine hmacSig secret s l with
      | Except.ok s' => runVerifyJson hmacSig secret s' ls
      | Except.error s' => Except.error s'

/-- Model of `verify_log_file` over its full input domain: `none` means the
scan raised an uncaught `KeyError`/`AttributeError` and the function aborted
without returning a verdict. -/
def verify_log_file_raw (hmacSig : String → String → String) (secret : String)
    (lines : List JsonLine) : Option VerifyResult :=
  if secret = "" then
    some { line_number := 0, anomalies := [], tampered := false,
           result := false }
  else
    match runVerifyJson hmacSig secret initJState lines with
    | Except.ok s =>
        some { line_number := s.line_number, anomalies := s.anomalies,
               tampered := s.tampered, result := !s.tampered }
    | Except.error _ => none

/-- Injection of the crash-free fragment into the full input domain: a
parsed complete record is a JSON object carrying all the keys the enricher
writes. -/
def jsonOfLine : LogLine → JsonLine
  | LogLine.malformed => JsonLine.malformed
  | LogLine.parsed r =>
      JsonLine.object
        { prev_signature := some r.prev_signature,
          timestamp := some r.timestamp, level := some r.level,
          message := r.message, signature := some r.signature }

/-- Injection of the restricted loop state into the full-domain one. -/
def jstateOf (s : VState) : JState :=
  { expected_prev := some s.expected_prev, line_number := s.line_number,
    tampered := s.tampered, anomalies := s.anomalies }

lemma verifyJsonLine_agrees (hmacSig : String → String → String)
    (secret : String) (s : VState) (l : LogLine) :
    verifyJsonLine hmacSig secret (jstateOf s) (jsonOfLine l)
      = Except.ok (jstateOf (verifyLine hmacSig secret s l)) := by
  cases l with
  | malformed => rfl
  | parsed r =>
      simp only [verifyJsonLine, verifyLine, jsonOfLine, jstateOf, payloadOf,
        ne_eq, Option.some.injEq]
      split_ifs <;> simp_all

lemma runVerifyJson_agrees (hmacSig : String → String → String)
    (secret : String) :
    ∀ (lines : List LogLine) (s : VState),
      runVerifyJson hmacSig secret (jstateOf s) (lines.map jsonOfLine)
        = Except.ok (jstateOf (runVerify hmacSig secret s lines))
  | [], _ => rfl
  | l :: ls, s => by
      simp only [List.map_cons, runVerifyJson,
        verifyJsonLine_agrees hmacSig secret s l]
      exact runVerifyJson_agrees hmacSig secret ls
        (verifyLine hmacSig secret s l)

/-- On the crash-free fragment, the full-domain model returns exactly the
restricted model's verdict: the two embeddings of `verify_log_file`
coincide wherever both are defined. -/
lemma verify_log_file_raw_agrees (hmacSig : String → String → String)
    (secret : String) (lines : List LogLine) :
    verify_log_file_raw hmacSig secret (lines.map jsonOfLine)
      = some (verify_log_file hmacSig secret lines) := by
  by_cases hs : secret = ""
  · simp [verify_log_file_raw, verify_log_file, hs]
  · have h2 : runVerifyJson hmacSig secret initJState (lines.map jsonOfLine)
        = Except.ok (jstateOf (runVerify hmacSig secret initVState lines)) :=
      runVerifyJson_agrees hmacSig secret lines initVState
    rw [verify_log_file_eq hmacSig secret lines hs]
    simp only [verify_log_file_raw, if_neg hs, h2]
    rfl

/-- Claim C3 (code bug): the scan does not always run to completion.  On a
file whose single line is an empty JSON object — valid JSON, so the line-35
`except` does not fire, but missing `prev_signature`, `timestamp` and
`level` — the line-40 chain comparison sees `None` differ from the expected
genesis hash and charges the line with a chain discontinuity, and then the
f-string at `verify_audit.py` line 44 raises an uncaught `KeyError`:
`verify_log_file` aborts without returning any verdict, contradicting the
claim (and the spec's "must always scan to completion") that a chain
mismatch never aborts the scan and that a boolean is always returned. -/
theorem verify_crashes_on_incomplete_record :
    verify_log_file_raw hmacDemo "sk"
        [JsonLine.object
          { prev_signature := none, timestamp := none, level := none,
            message := none, signature := none }] = none ∧
    runVerifyJson hmacDemo "sk" initJState
        [JsonLine.object
          { prev_signature := none, timestamp := none, level := none,
            message := none, signature := none }]
      = Except.error
          { expected_prev := some genesis, line_number := 1,
            tampered := true, anomalies := [Anomaly.chainBreak 1] } :=
  ⟨rfl, rfl⟩
